import Mathlib

/-!
Verification development for the MCP-server repository: shallow embeddings of
the tool registry, the resumable CSV ingestion pipeline, and the distributed
lease primitives, with theorems settling the specification claims.
-/

set_option linter.unusedVariables false

/-! ## Status enums (src/enum/csv_status.py, src/enum/embedding_status.py) -/

inductive EmbeddingStatus
  | PENDING
  | DONE
  | FAILED
deriving DecidableEq, Repr

inductive FileStatus
  | PENDING
  | DONE
  | FAILED
deriving DecidableEq, Repr

/-! ## Redis lease release (src/src/services/worker.py)

`_RELEASE_LUA` runs atomically in Redis: it reads the value stored at the lock
key, deletes the key only when the value equals the releasing owner, and
returns 1 on delete, 0 otherwise.  The store at the single key of interest is
modelled as `Option String` (`some v` when the key holds value `v`). -/

namespace Worker

def releaseLua (store : Option String) (owner : String) : Option String × Nat :=
  match store with
  | some v => if v = owner then (none, 1) else (some v, 0)
  | none => (none, 0)

/-- Model of `RedisLock.release`: runs the Lua compare-and-delete; if the
`redis.eval` call raises a `RedisError` (`evalRaises`), falls back to a GET
followed by a DEL when the value matches the owner.  All exceptions are caught
inside `release`, so the function is total and returns only the new store. -/
def RedisLock.release (store : Option String) (owner : String)
    (evalRaises : Bool) : Option String :=
  if evalRaises then
    match store with
    | some v => if v = owner then none else some v
    | none => store
  else (releaseLua store owner).1

/-! ### `ingest_tool_task` (src/src/services/worker.py)

The distributed ingestion task guards execution with a `RedisLock` keyed by
`_make_lock_key(tool_name, kwargs)` and owned by the Celery task id.  The
Redis store at that key is modelled as `Option (String × Int)` — owner id and
remaining ttl — over the duration of one delivery (no expiry mid-call). -/

structure TaskResponse where
  tool : String
  status : String
  runningTaskId : Option String
  ttl : Option Int
  taskId : Option String
  message : Option String
deriving DecidableEq, Repr

structure TaskRun where
  store : Option (String × Int)
  resp : TaskResponse
  executedIngest : Bool
deriving DecidableEq, Repr

/-- `RedisLock.acquire`: `SET key owner NX EX ttl` — succeeds only when the
key is absent. -/
def RedisLock.tryAcquire (store : Option (String × Int)) (owner : String)
    (ttl : Int) : Option (String × Int) × Bool :=
  match store with
  | none => (some (owner, ttl), true)
  | some s => (some s, false)

/-- `RedisLock.get_lock_info`: returns `{'owner_id':…, 'ttl':…}` or `None`. -/
def RedisLock.getLockInfo (store : Option (String × Int)) :
    Option (String × Int) :=
  store

/-- `_RELEASE_LUA` on the (owner, ttl) store: deletes the key only when the
stored owner matches. -/
def releasePair (store : Option (String × Int)) (owner : String) :
    Option (String × Int) :=
  match store with
  | some (v, t) => if v = owner then none else some (v, t)
  | none => none

/-- Model of `ingest_tool_task` for a single delivery: try to acquire the
idempotency lock; when the key is already held, read the lock info and return
a `"running"` response carrying the in-progress owner id (no ingestion runs,
nothing raises); when acquired, run the ingestion body and release the lock in
the `finally` block via the owner-checked compare-and-delete. -/
def ingest_tool_task (store : Option (String × Int)) (toolName taskId : String)
    (ttl : Int) : TaskRun :=
  let (store1, acquired) := RedisLock.tryAcquire store taskId ttl
  if acquired then
    -- body: resolve tool, initialize, run ingest_folder/ingest; then finally release
    let resp : TaskResponse :=
      { tool := toolName, status := "ok", runningTaskId := none,
        ttl := none, taskId := some taskId, message := none }
    { store := releasePair store1 taskId, resp := resp, executedIngest := true }
  else
    match RedisLock.getLockInfo store1 with
    | some (owner, t) =>
      { store := store1
        resp := { tool := toolName, status := "running",
                  runningTaskId := some owner, ttl := some t,
                  taskId := none, message := none }
        executedIngest := false }
    | none =>
      -- race branch: key vanished between SET and GET; retry the acquire once
      let (store2, acquired2) := RedisLock.tryAcquire store1 taskId ttl
      if acquired2 then
        let resp : TaskResponse :=
          { tool := toolName, status := "ok", runningTaskId := none,
            ttl := none, taskId := some taskId, message := none }
        { store := releasePair store2 taskId, resp := resp,
          executedIngest := true }
      else
        { store := store2
          resp := { tool := toolName, status := "skipped",
                    runningTaskId := none, ttl := none, taskId := none,
                    message := some "Could not acquire lock" }
          executedIngest := false }

end Worker

/-! ## Invocation-slot running count (src/manual/registry.py, `_InvocationCtx`)

`__aenter__` increments `entry.running_count`; `__aexit__` sets it to
`max(0, running_count - 1)`.  The count is modelled as `Int` so that
non-negativity is a real invariant rather than a typing artifact. -/

namespace Registry

def slotEnter (c : Int) : Int := c + 1

def slotExit (c : Int) : Int := max 0 (c - 1)

inductive SlotOp
  | acquireSlot
  | releaseSlot
deriving DecidableEq, Repr

def slotStep (c : Int) : SlotOp → Int
  | .acquireSlot => slotEnter c
  | .releaseSlot => slotExit c

def runSlots (c : Int) (ops : List SlotOp) : Int :=
  ops.foldl slotStep c

/-! ### `ToolRegistry.initialize_all` (src/manual/registry.py)

Each registered adapter optionally has an `initialize` coroutine; the registry
launches all of them concurrently and waits with
`asyncio.wait(…, return_when=FIRST_EXCEPTION, timeout=timeout)`.  An
initializer is modelled by its completion time and outcome; an adapter by that
optional initializer together with the value of its `ready` attribute at the
moment the registry reads it (`getattr(adapter, "ready", True)` — `none`
models a missing attribute).  `asyncio.wait` returns at the earliest of: the
first failure, the timeout, or the completion of every task; tasks finished by
then are `done`, the rest `pending`.  The code then re-raises the exception of
a done failed task (cancelling all pending tasks) or, when no done task
failed but some are pending, cancels them and raises `TimeoutError`. -/

structure InitSpec where
  finish : Nat
  fails : Bool
  errMsg : String
deriving DecidableEq, Repr

structure AdapterSpec where
  init : Option InitSpec
  readyAttr : Option Bool
deriving DecidableEq, Repr

structure EntryState where
  ready : Bool
  lastError : Option String
  cancelled : Bool
deriving DecidableEq, Repr

inductive InitError
  | initFailed (msg : String)
  | timeoutErr
deriving DecidableEq, Repr

structure InitAllResult where
  outcome : Option InitError
  entries : List EntryState
deriving DecidableEq, Repr

def foldrMin : List Nat → Option Nat
  | [] => none
  | n :: rest =>
    match foldrMin rest with
    | none => some n
    | some m => some (if n ≤ m then n else m)

def initTasks (tools : List AdapterSpec) : List InitSpec :=
  tools.filterMap (·.init)

/-- The moment `asyncio.wait` returns: the earliest failure if one occurs
before the timeout, else the timeout (when every task finishes earlier the
choice of cutoff no longer matters — all tasks are done). -/
def waitCutoff (timeout : Nat) (tools : List AdapterSpec) : Nat :=
  match foldrMin (((initTasks tools).filter (·.fails)).map (·.finish)) with
  | some f => min f timeout
  | none => timeout

/-- Final registry state of one entry after `initialize_all`: tools without an
initializer are marked with `bool(getattr(adapter, "ready", True))`; a task
done by the cutoff records its success (readiness read from the adapter) or
failure (`last_error` set); a task still pending at the cutoff is cancelled
(`CancelledError` is not caught by the wrapper's `except Exception`, so the
entry stays not-ready with no recorded error). -/
def entryAfterInitAll (cutoff : Nat) (a : AdapterSpec) : EntryState :=
  match a.init with
  | none => { ready := a.readyAttr.getD true, lastError := none, cancelled := false }
  | some s =>
    if s.finish ≤ cutoff then
      if s.fails then { ready := false, lastError := some s.errMsg, cancelled := false }
      else { ready := a.readyAttr.getD true, lastError := none, cancelled := false }
    else { ready := false, lastError := none, cancelled := true }

/-- The tasks `asyncio.wait` reports as done with an exception: failing
initializers that finished by the cutoff (list order = task-set iteration
order; the code raises the exception of the first such task it meets). -/
def doneFailedTasks (timeout : Nat) (tools : List AdapterSpec) : List InitSpec :=
  (initTasks tools).filter (fun s => s.fails && s.finish ≤ waitCutoff timeout tools)

def initialize_all (timeout : Nat) (tools : List AdapterSpec) : InitAllResult :=
  { outcome :=
      match (doneFailedTasks timeout tools).head? with
      | some s => some (.initFailed s.errMsg)
      | none =>
        if (initTasks tools).any (fun s => waitCutoff timeout tools < s.finish) then
          some .timeoutErr
        else none
    entries := tools.map (entryAfterInitAll (waitCutoff timeout tools)) }

lemma slotStep_nonneg (c : Int) (hc : 0 ≤ c) (op : SlotOp) : 0 ≤ slotStep c op := by
  cases op with
  | acquireSlot => simpa [slotStep, slotEnter] using le_trans hc (by omega)
  | releaseSlot => simp [slotStep, slotExit, le_max_left]

lemma runSlots_nonneg (ops : List SlotOp) (c : Int) (hc : 0 ≤ c) :
    0 ≤ runSlots c ops := by
  induction ops generalizing c with
  | nil => simpa [runSlots]
  | cons op rest ih =>
    have h1 : 0 ≤ slotStep c op := slotStep_nonneg c hc op
    simpa [runSlots, List.foldl_cons] using ih (slotStep c op) h1

end Registry

/-! ## CSV file checkpoint store
(src/src/app/tool/tools/csv_rag/managers/file_manager.py,
 src/src/app/tool/tools/csv_rag/crud/crud_file.py)

`_normalized_path` is `os.path.normpath(path).replace("\\", "/")`.  The
server runs on POSIX, so `normpath` is CPython's `posixpath.normpath`,
translated here to operate on the string's character list (Lean's built-in
`String.splitOn` is not kernel-reducible). -/

namespace FileMgr

/-- `path.split("/")` on the character list. -/
def splitSlash : List Char → List (List Char)
  | [] => [[]]
  | c :: rest =>
    let r := splitSlash rest
    if c = '/' then [] :: r
    else
      match r with
      | h :: t => (c :: h) :: t
      | [] => [[c]]

/-- `initial_slashes` of `posixpath.normpath`: 1 when the path starts with
`/`, except 2 when it starts with exactly two slashes (POSIX reserves `//`). -/
def initialSlashes : List Char → Nat
  | '/' :: '/' :: '/' :: _ => 1
  | '/' :: '/' :: _ => 2
  | '/' :: _ => 1
  | _ => 0

/-- The component loop of `posixpath.normpath`: drop empty and `.`
components; append a component unless it is `..` that cancels against a
previous real component (or is being swallowed at the root of an absolute
path). -/
def normComps (slashes : Nat) (comps : List (List Char)) : List (List Char) :=
  comps.foldl
    (fun acc comp =>
      if comp = [] ∨ comp = ['.'] then acc
      else if comp ≠ ['.', '.'] ∨ (slashes = 0 ∧ acc = []) ∨
          acc.getLast? = some ['.', '.'] then acc ++ [comp]
      else if acc ≠ [] then acc.dropLast
      else acc) []

/-- `posixpath.normpath`. -/
def normpath (path : String) : String :=
  if path = "" then "."
  else
    let cs := path.toList
    let slashes := initialSlashes cs
    let joined := List.intercalate ['/'] (normComps slashes (splitSlash cs))
    let out := List.replicate slashes '/' ++ joined
    if out = [] then "." else out.asString

/-- `CSVFileManager._normalized_path`: `os.path.normpath(path)` followed by
`.replace("\\", "/")` (a single-character pattern, i.e. each backslash
character becomes a slash). -/
def normalized_path (path : String) : String :=
  ((normpath path).toList.map (fun c => if c = '\\' then '/' else c)).asString

/-- One `csv_files` row (`CSVFile` model): path is the unique key; `status`
and `last_row_index` are the checkpoint fields. -/
structure CSVFileRec where
  id : Nat
  path : String
  checksum : String
  status : FileStatus
  last_row_index : Nat
deriving DecidableEq, Repr

structure FileTable where
  files : List CSVFileRec
  nextId : Nat
deriving DecidableEq, Repr

/-- `get_csv_file(session, path)`: select the row with this exact path. -/
def get_csv_file (t : FileTable) (path : String) : Option CSVFileRec :=
  t.files.find? (fun f => f.path == path)

/-- `create_csv_file`: normalizes the path again, inserts the row and
returns it. -/
def create_csv_file (t : FileTable) (path checksum : String)
    (status : FileStatus) (lastRowIndex : Nat) : CSVFileRec × FileTable :=
  let r : CSVFileRec :=
    { id := t.nextId, path := normalized_path path, checksum := checksum,
      status := status, last_row_index := lastRowIndex }
  (r, { files := t.files ++ [r], nextId := t.nextId + 1 })

/-- `update_csv_file_checksum`: update checksum, status and `last_row_index`
of the row with this id, then re-select and return it. -/
def update_csv_file_checksum (t : FileTable) (fileId : Nat)
    (newChecksum : String) (status : FileStatus) (lastRowIndex : Nat) :
    Option CSVFileRec × FileTable :=
  let files := t.files.map (fun f =>
    if f.id == fileId then
      { f with checksum := newChecksum, status := status,
               last_row_index := lastRowIndex }
    else f)
  ((files.find? (fun f => f.id == fileId)), { t with files := files })

/-- `CSVFileManager.get_or_register_file`.  `fp` models the filesystem
content fingerprint `_compute_file_checksum_sync` as a function of the path
it is given; `compute_file_checksum` normalizes its argument once more
before reading the file. -/
def get_or_register_file (t : FileTable) (fp : String → String)
    (filePath : String) : Option CSVFileRec × FileTable :=
  let normPath := normalized_path filePath
  let checksum := fp (normalized_path normPath)
  match get_csv_file t normPath with
  | none =>
    let (r, t') := create_csv_file t normPath checksum FileStatus.PENDING 0
    (some r, t')
  | some existing =>
    if existing.checksum ≠ checksum then
      update_csv_file_checksum t existing.id checksum FileStatus.PENDING 0
    else (some existing, t)

end FileMgr

/-! ## Canonical row store (src/src/app/tool/tools/csv_rag/crud/crud_row.py)

`bulk_upsert_rows` issues one `INSERT … ON CONFLICT (checksum) DO UPDATE SET
external_id, file_id, content, fields … RETURNING id, checksum` and builds a
`{checksum: id}` dict from the returned rows.  The table (`csv_rows`, unique
index on `checksum`) is modelled as a list of rows plus the next serial id;
the statement processes the VALUES list row by row: a conflicting row gets
its mutable columns updated in place (id and checksum kept), a fresh row is
inserted with the next id and default `embedding_status = PENDING`. -/

namespace RowStore

structure PreparedRow where
  file_id : Nat
  external_id : Int
  content : String
  checksum : String
  fields : List (String × String)
deriving DecidableEq, Repr

/-- One `csv_rows` row (`CSVRow` model). -/
structure CSVRowRec where
  id : Nat
  file_id : Nat
  external_id : Int
  content : String
  checksum : String
  fields : List (String × String)
  embedding_status : EmbeddingStatus
  embedding_error : Option String
  vector_id : Option String
deriving DecidableEq, Repr

structure RowTable where
  rows : List CSVRowRec
  nextId : Nat
deriving DecidableEq, Repr

def newRow (id : Nat) (p : PreparedRow) : CSVRowRec :=
  { id := id, file_id := p.file_id, external_id := p.external_id,
    content := p.content, checksum := p.checksum, fields := p.fields,
    embedding_status := EmbeddingStatus.PENDING, embedding_error := none,
    vector_id := none }

/-- `ON CONFLICT DO UPDATE SET external_id, file_id, content, fields` —
id, checksum and the embedding columns are untouched. -/
def applyConflictUpdate (p : PreparedRow) (r : CSVRowRec) : CSVRowRec :=
  { r with external_id := p.external_id, file_id := p.file_id,
           content := p.content, fields := p.fields }

/-- Upsert of a single VALUES row: update the (unique) conflicting stored row
in place, else append a fresh row; also yields the RETURNING pair
`(checksum, id)`. -/
def upsertRows : List CSVRowRec → Nat → PreparedRow →
    List CSVRowRec × Nat × (String × Nat)
  | [], nid, p => ([newRow nid p], nid + 1, (p.checksum, nid))
  | x :: xs, nid, p =>
    if x.checksum = p.checksum then
      (applyConflictUpdate p x :: xs, nid, (p.checksum, x.id))
    else
      let (xs', nid', pr) := upsertRows xs nid p
      (x :: xs', nid', pr)

/-- `bulk_upsert_rows(session, rows)`: upserts the whole batch in order and
collects the RETURNING pairs. -/
def bulk_upsert_rows (t : RowTable) (batch : List PreparedRow) :
    RowTable × List (String × Nat) :=
  match batch with
  | [] => (t, [])
  | p :: rest =>
    let (rows', nid', pr) := upsertRows t.rows t.nextId p
    let (t', prs) := bulk_upsert_rows ⟨rows', nid'⟩ rest
    (t', pr :: prs)

/-- The dict build `mapping[checksum] = int(db_id)` over the RETURNING pairs
in order: the last assignment for a checksum wins. -/
def mappingGet : List (String × Nat) → String → Option Nat
  | [], _ => none
  | (k, v) :: rest, c =>
    match mappingGet rest c with
    | some v' => some v'
    | none => if k == c then some v else none

def findRow (t : RowTable) (c : String) : Option CSVRowRec :=
  t.rows.find? (fun r => r.checksum == c)

end RowStore

/-! ## Row Pipeline — manual variant (src/manual/managers/ingest_manager.py)

`CSVIngestManager.ingest_rows` streams rows through `RowStreamer`, and per
batch: bulk-upserts (on failure: log, advance offset, continue), deduplicates
checksums in first-seen order, computes embeddings for the unique texts (on
failure: mark those checksums FAILED with the error text, advance offset,
continue), writes vectors under ids `f"CSVRow:{dbid}"` (on failure: mark the
batch's present checksums FAILED with `"vector_store_error"`, advance offset,
continue), marks the written rows DONE with their vector id, and advances the
offset.  Embedding vectors are opaque here (only ids and metadata flow into
observable state); `chk` and `prep` are the external `row_checksum` (sha256
over sorted key/value pairs) and `prepare_text_for_embedding` collaborators;
per-batch faults of the three external calls are given by a fault list. -/

namespace Pipeline

/-- Decimal parser modelling Python `int(...)` on well-formed numeric
strings (the only inputs the pipeline feeds it). -/
def digitVal (c : Char) : Option Nat :=
  if '0' ≤ c ∧ c ≤ '9' then some (c.toNat - '0'.toNat) else none

def parseNatChars (cs : List Char) : Option Nat :=
  cs.foldl
    (fun acc c =>
      match acc, digitVal c with
      | some n, some d => some (n * 10 + d)
      | _, _ => none)
    (if cs = [] then none else some 0)

def parseIntStr (s : String) : Option Int :=
  match s.toList with
  | '-' :: rest => (parseNatChars rest).map (fun n => -(n : Int))
  | cs => (parseNatChars cs).map (fun n => (n : Int))

/-- Python dict assignment `row["file_id"] = file_id`: replace in place or
append at the end. -/
def setField (row : List (String × String)) (k v : String) :
    List (String × String) :=
  if row.any (fun kv => kv.1 == k) then
    row.map (fun kv => if kv.1 == k then (k, v) else kv)
  else row ++ [(k, v)]

/-- `list(dict.fromkeys(checksums))`: deduplicate keeping first occurrences
in order. -/
def dedupFirst (l : List String) : List String :=
  l.foldl (fun acc c => if acc.contains c then acc else acc ++ [c]) []

/-- The prepared dict appended to the buffer for one streamed row. -/
def buildPrepared (chk prep : List (String × String) → String) (fileId : Nat)
    (row : List (String × String)) : RowStore.PreparedRow :=
  let row' := setField row "file_id" (toString fileId)
  { file_id := fileId
    external_id :=
      (parseIntStr (((row'.find? (fun kv => kv.1 == "external_id")).map
        Prod.snd).getD "")).getD 0
    content := prep row'
    checksum := chk row'
    fields := row' }

structure Batch where
  buffer : List RowStore.PreparedRow
  counter : Nat
deriving DecidableEq, Repr

/-- `RowStreamer.stream_batches`: the row counter starts at
`file_meta["last_row_index"]` and increments per streamed row (the
`row_counter <= start_index` guard right after the increment can never fire
and is kept verbatim); full batches are emitted at `batch_size`, a final
partial batch at the end. -/
def stream_batches (chk prep : List (String × String) → String)
    (startIndex fileId batchSize : Nat)
    (rows : List (List (String × String))) : List Batch :=
  let step := rows.foldl
    (fun (acc : List Batch × List RowStore.PreparedRow × Nat) row =>
      let (batches, buffer, counter) := acc
      let counter' := counter + 1
      if counter' ≤ startIndex then (batches, buffer, counter')
      else
        let buffer' := buffer ++ [buildPrepared chk prep fileId row]
        if batchSize ≤ buffer'.length then
          (batches ++ [⟨buffer', counter'⟩], [], counter')
        else (batches, buffer', counter'))
    ([], [], startIndex)
  if step.2.1 ≠ [] then step.1 ++ [⟨step.2.1, step.2.2⟩] else step.1

/-- Per-batch outcomes of the three fallible external calls: `none` means the
call succeeds, `some e` that it raises `e`. -/
structure BatchFault where
  upsertExc : Option String
  embedExc : Option String
  vsExc : Option String
deriving DecidableEq, Repr

def noFault : BatchFault := ⟨none, none, none⟩

/-- Pipeline-visible DB state: the row table, the source file's checkpoint
columns (`status`, `last_row_index`) and the ids written to the vector
store. -/
structure PipeState where
  table : RowStore.RowTable
  status : FileStatus
  lastRowIndex : Nat
  vsIds : List String
deriving DecidableEq, Repr

/-- `RowRepository.mark_checksums_failed` (no-op on an empty list). -/
def mark_checksums_failed (t : RowStore.RowTable) (cs : List String)
    (err : String) : RowStore.RowTable :=
  if cs = [] then t
  else
    { t with rows := t.rows.map (fun r =>
        if cs.contains r.checksum then
          { r with embedding_status := EmbeddingStatus.FAILED,
                   embedding_error := some err }
        else r) }

/-- `RowRepository.mark_rows_done_with_vector`: one UPDATE per
(row id, vector id) pair. -/
def mark_rows_done_with_vector (t : RowStore.RowTable)
    (pairs : List (Nat × String)) : RowStore.RowTable :=
  pairs.foldl
    (fun acc pr =>
      { acc with rows := acc.rows.map (fun r =>
          if r.id = pr.1 then
            { r with embedding_status := EmbeddingStatus.DONE,
                     vector_id := some pr.2 }
          else r) })
    t

/-- The `vs_batch` loop: per unique checksum, skip falsy db ids (`None` or
`0`), else derive the deterministic vector id `f"CSVRow:{dbid}"`; yields
(row id, vector id, checksum) triples. -/
def vsBatchOf (m : List (String × Nat)) (uniq : List String) :
    List (Nat × String × String) :=
  uniq.foldl
    (fun acc c =>
      match RowStore.mappingGet m c with
      | none => acc
      | some dbid =>
        if dbid = 0 then acc
        else acc ++ [(dbid, ("CSVRow:" ++ toString dbid, c))])
    []

/-- One iteration of the manual `ingest_rows` batch loop. -/
def processBatch (st : PipeState) (b : Batch) (f : BatchFault) : PipeState :=
  match f.upsertExc with
  | some _ => { st with lastRowIndex := b.counter }
  | none =>
    let (table1, pairs) := RowStore.bulk_upsert_rows st.table b.buffer
    let uniq := dedupFirst (b.buffer.map (·.checksum))
    match f.embedExc with
    | some e =>
      { st with table := mark_checksums_failed table1 uniq e,
                lastRowIndex := b.counter }
    | none =>
      let vsb := vsBatchOf pairs uniq
      if vsb ≠ [] then
        match f.vsExc with
        | some _ =>
          { st with
              table := mark_checksums_failed table1
                (vsb.map (fun e => e.2.2)) "vector_store_error",
              lastRowIndex := b.counter }
        | none =>
          { st with
              table := mark_rows_done_with_vector table1
                (vsb.map (fun e => (e.1, e.2.1))),
              vsIds := st.vsIds ++ vsb.map (fun e => e.2.1),
              lastRowIndex := b.counter }
      else { st with table := table1, lastRowIndex := b.counter }

/-- `CSVIngestManager.ingest_rows` (manual): stream, then process each batch
with its fault environment. -/
def ingest_rows (chk prep : List (String × String) → String)
    (fileId startIndex batchSize : Nat)
    (rows : List (List (String × String))) (faults : List BatchFault)
    (st0 : PipeState) : PipeState :=
  ((stream_batches chk prep startIndex fileId batchSize rows).foldl
    (fun (acc : PipeState × Nat) b =>
      (processBatch acc.1 b ((faults.get? acc.2).getD noFault), acc.2 + 1))
    (st0, 0)).1

/-- `CSVFileManager.mark_file_as_done`: sets status DONE and
`last_row_index := count_total_rows(path)` (the file's data-row count). -/
def mark_file_as_done (st : PipeState) (totalRows : Nat) : PipeState :=
  { st with status := FileStatus.DONE, lastRowIndex := totalRows }

/-- The `ingest_folder` success path for one pending file: run `ingest_rows`
(whose per-batch failures are all contained) and then mark the file DONE. -/
def ingest_file_and_mark_done (chk prep : List (String × String) → String)
    (fileId startIndex batchSize : Nat)
    (rows : List (List (String × String))) (faults : List BatchFault)
    (st0 : PipeState) (totalRows : Nat) : PipeState :=
  mark_file_as_done
    (ingest_rows chk prep fileId startIndex batchSize rows faults st0)
    totalRows

end Pipeline

/-! ## Row Pipeline — csv_rag variant
(src/src/app/tool/tools/csv_rag/managers/ingest_manager.py)

`CSVIngestManager._flush_insert_stream` differs from the manual variant: a
batch whose embedding computation fails marks the unique checksums FAILED and
returns WITHOUT updating `last_row_index`, and a vector-store failure is not
caught — the exception propagates out of the flush (and no offset update
runs).  Only the success path (and the empty-`vs_batch` path) advances
`last_row_index` to the current row counter. -/

namespace CsvRagPipe

/-- `_flush_insert_stream(session, buffer, checksums, texts, metas)`;
`Except.error` models an exception propagating out of the call. -/
def flush_insert_stream (st : Pipeline.PipeState) (b : Pipeline.Batch)
    (f : Pipeline.BatchFault) : Except String Pipeline.PipeState :=
  if b.buffer = [] then .ok st
  else
    let (table1, pairs) := RowStore.bulk_upsert_rows st.table b.buffer
    let uniq := Pipeline.dedupFirst (b.buffer.map (·.checksum))
    match f.embedExc with
    | some e =>
      .ok { st with table := Pipeline.mark_checksums_failed table1 uniq e }
    | none =>
      let vsb := Pipeline.vsBatchOf pairs uniq
      if vsb ≠ [] then
        match f.vsExc with
        | some err => .error err
        | none =>
          .ok { st with
              table := Pipeline.mark_rows_done_with_vector table1
                (vsb.map (fun e => (e.1, e.2.1))),
              vsIds := st.vsIds ++ vsb.map (fun e => e.2.1),
              lastRowIndex := b.counter }
      else .ok { st with table := table1, lastRowIndex := b.counter }

end CsvRagPipe

/-! ## `CsvRagTool.ingest_folder` lock usage (src/src/app/tool/tools/rag/rag.py)

`ingest_folder` acquires the pg advisory lock (key 42), but the
`async with advisory_lock(...)` block contains only the acquired-check: the
context manager's `finally` clause runs `pg_advisory_unlock` as soon as that
block exits, and the folder scan plus all checkpoint mutation happen *after*
the block.  The observable actions of one `ingest_folder` call are modelled as
an event list, and concurrent calls from two processes as interleavings of
their event lists that respect the advisory lock's semantics (an acquire event
only occurs while the lock is free, a release only by the holder). -/

namespace RagTool

inductive IngestEvent
  | lockAcquire
  | lockRelease
  | scanFolder
  | mutateCheckpoint
deriving DecidableEq, Repr

/-- Event trace of one `ingest_folder(folder_path)` call, given whether the
tool is initialized, whether `pg_try_advisory_lock(42)` succeeded, and how
many non-DONE files the scan finds.  Translated from the control flow of
`CsvRagTool.ingest_folder`: the advisory-lock block holds only the
`if not acquired: return` check, so the unlock precedes the scan. -/
def ingestFolderEvents (ready acquired : Bool) (filesToProcess : Nat) :
    List IngestEvent :=
  if !ready then []
  else if acquired then
    [.lockAcquire, .lockRelease, .scanFolder] ++
      List.replicate filesToProcess .mutateCheckpoint
  else
    -- `pg_try_advisory_lock` returned false: log and return, nothing mutated
    []

/-- Advisory-lock validity of an interleaved trace of `(pid, event)` pairs:
the lock is acquired only when free and released only by its holder. -/
def lockOk : Option Nat → List (Nat × IngestEvent) → Bool
  | _, [] => true
  | st, (p, e) :: rest =>
    match e, st with
    | .lockAcquire, none => lockOk (some p) rest
    | .lockAcquire, some _ => false
    | .lockRelease, some q => q == p && lockOk none rest
    | .lockRelease, none => false
    | _, st => lockOk st rest

/-- `isShuffle a b c`: `c` is an interleaving of `a` and `b` (order within
each preserved). -/
def isShuffle : List (Nat × IngestEvent) → List (Nat × IngestEvent) →
    List (Nat × IngestEvent) → Bool
  | [], [], [] => true
  | _, _, [] => false
  | as, bs, c :: cs =>
    (match as with
     | a :: as' => a == c && isShuffle as' bs cs
     | [] => false) ||
    (match bs with
     | b :: bs' => b == c && isShuffle as bs' cs
     | [] => false)

def tag (pid : Nat) (es : List IngestEvent) : List (Nat × IngestEvent) :=
  es.map (fun e => (pid, e))

def countEvents (tr : List (Nat × IngestEvent)) (pid : Nat)
    (e : IngestEvent) : Nat :=
  (tr.filter (fun pe => pe == (pid, e))).length

/-- A concrete lock-respecting interleaving of two concurrent `ingest_folder`
calls (process 0 and process 1, one pending file each) in which both processes
scan and both mutate checkpoint state: process 1 acquires the advisory lock
right after process 0's lock block exits, while process 0 has not yet scanned. -/
def overlappingTrace : List (Nat × IngestEvent) :=
  [(0, .lockAcquire), (0, .lockRelease),
   (1, .lockAcquire), (1, .lockRelease),
   (0, .scanFolder), (1, .scanFolder),
   (0, .mutateCheckpoint), (1, .mutateCheckpoint)]

end RagTool

/-! ## Helper lemmas -/

namespace Registry

lemma foldrMin_isSome {l : List Nat} (h : l ≠ []) : (foldrMin l).isSome := by
  cases l with
  | nil => simp at h
  | cons n rest =>
    cases hrest : foldrMin rest <;> simp [foldrMin, hrest]

lemma foldrMin_le_of_mem {l : List Nat} {m x : Nat} (h : foldrMin l = some m)
    (hx : x ∈ l) : m ≤ x := by
  induction l generalizing m with
  | nil => cases hx
  | cons n rest ih =>
    cases hrest : foldrMin rest with
    | none =>
      have hnil : rest = [] := by
        by_contra hne
        have hs := foldrMin_isSome (l := rest) hne
        rw [hrest] at hs
        simp at hs
      subst hnil
      simp only [foldrMin, Option.some.injEq] at h
      rcases List.mem_cons.mp hx with rfl | hx'
      · omega
      · cases hx'
    | some k =>
      simp only [foldrMin, hrest, Option.some.injEq] at h
      have hk := fun hx' => ih (m := k) hrest hx'
      rcases List.mem_cons.mp hx with rfl | hx'
      · split at h <;> omega
      · have := hk hx'
        split at h <;> omega

lemma foldrMin_mem {l : List Nat} {m : Nat} (h : foldrMin l = some m) : m ∈ l := by
  induction l generalizing m with
  | nil => simp [foldrMin] at h
  | cons n rest ih =>
    cases hrest : foldrMin rest with
    | none =>
      simp only [foldrMin, hrest, Option.some.injEq] at h
      exact h ▸ List.mem_cons_self n rest
    | some k =>
      simp only [foldrMin, hrest, Option.some.injEq] at h
      by_cases hnk : n ≤ k
      · rw [if_pos hnk] at h
        exact h ▸ List.mem_cons_self n rest
      · rw [if_neg hnk] at h
        exact List.mem_cons_of_mem n (h ▸ ih hrest)

lemma foldrMin_eq_of_mem_of_le {l : List Nat} {x : Nat} (hx : x ∈ l)
    (hle : ∀ y ∈ l, x ≤ y) : foldrMin l = some x := by
  cases hm : foldrMin l with
  | none =>
    have hs := foldrMin_isSome (List.ne_nil_of_mem hx)
    rw [hm] at hs
    simp at hs
  | some m =>
    have h1 : m ≤ x := foldrMin_le_of_mem hm hx
    have h2 : x ≤ m := hle m (foldrMin_mem hm)
    have : m = x := Nat.le_antisymm h1 h2
    rw [this]

lemma entries_get? (timeout : Nat) (tools : List AdapterSpec) (i : Nat) :
    (initialize_all timeout tools).entries.get? i =
      (tools.get? i).map (entryAfterInitAll (waitCutoff timeout tools)) := by
  simp [initialize_all, List.get?_map]

lemma waitCutoff_eq_of_first (timeout : Nat) (tools : List AdapterSpec)
    {s : InitSpec} (hmem : s ∈ initTasks tools) (hfail : s.fails = true)
    (hfin : s.finish ≤ timeout)
    (hmin : ∀ u ∈ initTasks tools, u.fails = true → s.finish ≤ u.finish) :
    waitCutoff timeout tools = s.finish := by
  have hm : s.finish ∈ ((initTasks tools).filter (·.fails)).map (·.finish) :=
    List.mem_map.mpr ⟨s, List.mem_filter.mpr ⟨hmem, by simp [hfail]⟩, rfl⟩
  have hlb : ∀ y ∈ ((initTasks tools).filter (·.fails)).map (·.finish),
      s.finish ≤ y := by
    intro y hy
    rcases List.mem_map.mp hy with ⟨u, hu, rfl⟩
    obtain ⟨hu1, hu2⟩ := List.mem_filter.mp hu
    exact hmin u hu1 (by simpa using hu2)
  simp only [waitCutoff, foldrMin_eq_of_mem_of_le hm hlb]
  omega

lemma waitCutoff_eq_timeout (timeout : Nat) (tools : List AdapterSpec)
    (h : ∀ u ∈ initTasks tools, u.fails = true → timeout < u.finish) :
    waitCutoff timeout tools = timeout := by
  simp only [waitCutoff]
  cases hm : foldrMin (((initTasks tools).filter (·.fails)).map (·.finish)) with
  | none => rfl
  | some f =>
    have hf := foldrMin_mem hm
    rcases List.mem_map.mp hf with ⟨u, hu, rfl⟩
    obtain ⟨hu1, hu2⟩ := List.mem_filter.mp hu
    have := h u hu1 (by simpa using hu2)
    show min u.finish timeout = timeout
    omega

end Registry

namespace FileMgr

lemma find?_path_map (files : List CSVFileRec) (g : CSVFileRec → CSVFileRec)
    (hg : ∀ f, (g f).path = f.path) (n : String) :
    (files.map g).find? (fun f => f.path == n) =
      (files.find? (fun f => f.path == n)).map g := by
  induction files with
  | nil => rfl
  | cons x t ih =>
    by_cases hp : x.path == n
    · simp [List.find?, hg, hp]
    · simp [List.find?, hg, hp, ih]

lemma find?_update_by_id (files : List CSVFileRec)
    (hnd : (files.map (·.id)).Nodup) (x : CSVFileRec) (hx : x ∈ files)
    (g : CSVFileRec → CSVFileRec) (hg : ∀ f, (g f).id = f.id) :
    (files.map (fun f => if f.id == x.id then g f else f)).find?
        (fun f => f.id == x.id) = some (g x) := by
  induction files with
  | nil => cases hx
  | cons y t ih =>
    rw [List.map_cons, List.nodup_cons] at hnd
    rcases List.mem_cons.mp hx with rfl | hx'
    · rw [List.map_cons]
      have h1 : (if (x.id == x.id) = true then g x else x) = g x := by simp
      rw [h1, List.find?_cons_of_pos _ (by simp [hg])]
    · have hy : ¬(y.id = x.id) := by
        intro he
        exact hnd.1 (List.mem_map.mpr ⟨x, hx', he.symm⟩)
      have ht := ih hnd.2 hx'
      rw [List.map_cons]
      have h1 : (if (y.id == x.id) = true then g y else y) = y := by simp [hy]
      rw [h1, List.find?_cons_of_neg _ (by simp [hy])]
      exact ht

lemma find?_append' (l₁ l₂ : List CSVFileRec) (p : CSVFileRec → Bool) :
    (l₁ ++ l₂).find? p = ((l₁.find? p).orElse fun _ => l₂.find? p) := by
  induction l₁ with
  | nil => rfl
  | cons x t ih =>
    by_cases hp : p x
    · simp [List.find?, hp]
    · simp [List.find?, hp, ih]

/-- Running `get_or_register_file` again (on any spelling of the same path)
returns the same record and leaves the table unchanged. -/
lemma get_or_register_file_stable (t : FileTable) (fp : String → String)
    (p : String) (hnd : (t.files.map (·.id)).Nodup)
    (hid : normalized_path (normalized_path p) = normalized_path p) :
    get_or_register_file (get_or_register_file t fp p).2 fp p =
      ((get_or_register_file t fp p).1, (get_or_register_file t fp p).2) := by
  cases hx : get_csv_file t (normalized_path p) with
  | none =>
    have h1 : get_or_register_file t fp p =
        (some ⟨t.nextId, normalized_path (normalized_path p),
           fp (normalized_path (normalized_path p)), FileStatus.PENDING, 0⟩,
         ⟨t.files ++ [⟨t.nextId, normalized_path (normalized_path p),
           fp (normalized_path (normalized_path p)), FileStatus.PENDING, 0⟩],
          t.nextId + 1⟩) := by
      simp only [get_or_register_file, hx, create_csv_file]
    rw [h1]
    have h2 : get_csv_file
        ⟨t.files ++ [⟨t.nextId, normalized_path (normalized_path p),
           fp (normalized_path (normalized_path p)), FileStatus.PENDING, 0⟩],
         t.nextId + 1⟩ (normalized_path p) =
        some ⟨t.nextId, normalized_path (normalized_path p),
           fp (normalized_path (normalized_path p)), FileStatus.PENDING, 0⟩ := by
      simp only [get_csv_file]
      rw [find?_append',
        show t.files.find? (fun f => f.path == normalized_path p) = none from hx]
      simp [List.find?, hid]
    simp only [get_or_register_file, h2]
    rw [if_neg (by simp)]
  | some x =>
    by_cases hc : x.checksum = fp (normalized_path (normalized_path p))
    · have h1 : get_or_register_file t fp p = (some x, t) := by
        simp only [get_or_register_file, hx]
        rw [if_neg (by simp [hc])]
      rw [h1]
      simp only [get_or_register_file, hx]
      rw [if_neg (by simp [hc])]
    · have hmem : x ∈ t.files := List.mem_of_find?_eq_some hx
      have hupd :
          (t.files.map (fun f =>
            if f.id == x.id then
              { f with checksum := fp (normalized_path (normalized_path p)),
                       status := FileStatus.PENDING, last_row_index := 0 }
            else f)).find? (fun f => f.id == x.id) =
          some { x with checksum := fp (normalized_path (normalized_path p)),
                        status := FileStatus.PENDING, last_row_index := 0 } :=
        find?_update_by_id t.files hnd x hmem _ (fun f => by
          by_cases hf : f.id == x.id <;> rfl)
      have h1 : get_or_register_file t fp p =
          (some { x with checksum := fp (normalized_path (normalized_path p)),
                         status := FileStatus.PENDING, last_row_index := 0 },
           ⟨t.files.map (fun f =>
              if f.id == x.id then
                { f with checksum := fp (normalized_path (normalized_path p)),
                         status := FileStatus.PENDING, last_row_index := 0 }
              else f), t.nextId⟩) := by
        simp only [get_or_register_file, hx]
        rw [if_pos hc]
        simp only [update_csv_file_checksum, hupd]
      rw [h1]
      have h2 : get_csv_file
          ⟨t.files.map (fun f =>
              if f.id == x.id then
                { f with checksum := fp (normalized_path (normalized_path p)),
                         status := FileStatus.PENDING, last_row_index := 0 }
              else f), t.nextId⟩ (normalized_path p) =
          some { x with checksum := fp (normalized_path (normalized_path p)),
                        status := FileStatus.PENDING, last_row_index := 0 } := by
        simp only [get_csv_file]
        rw [find?_path_map _ _ (fun f => by
          by_cases hf : f.id == x.id <;> simp [hf]),
          show t.files.find? (fun f => f.path == normalized_path p) = some x from hx]
        simp
      simp only [get_or_register_file, h2]
      rw [if_neg (by simp)]

/-- `get_or_register_file` reads only the normalized path, so two spellings
with the same normalization behave identically. -/
lemma get_or_register_file_congr (t : FileTable) (fp : String → String)
    {p1 p2 : String} (hnorm : normalized_path p1 = normalized_path p2) :
    get_or_register_file t fp p1 = get_or_register_file t fp p2 := by
  simp only [get_or_register_file, hnorm]

end FileMgr

namespace RowStore

lemma upsertRows_find_eq (rows : List CSVRowRec) (nid : Nat) (p : PreparedRow) :
    (upsertRows rows nid p).1.find? (fun r => r.checksum == p.checksum) =
      some (match rows.find? (fun r => r.checksum == p.checksum) with
            | some x => applyConflictUpdate p x
            | none => newRow nid p) := by
  induction rows generalizing nid with
  | nil =>
    simp [upsertRows, List.find?, newRow]
  | cons x xs ih =>
    by_cases hx : x.checksum = p.checksum
    · rw [upsertRows, if_pos hx]
      have h1 : (applyConflictUpdate p x).checksum = x.checksum := rfl
      rw [List.find?_cons_of_pos _ (by simp [h1, hx]),
        List.find?_cons_of_pos _ (by simp [hx])]
    · rw [upsertRows, if_neg hx]
      have h2 := ih nid
      cases hres : upsertRows xs nid p with
      | mk rows' rest =>
        rw [hres] at h2
        simp only
        rw [List.find?_cons_of_neg _ (by simp [hx]),
          List.find?_cons_of_neg _ (by simp [hx])]
        exact h2

lemma upsertRows_find_ne (rows : List CSVRowRec) (nid : Nat) (p : PreparedRow)
    (c : String) (hc : c ≠ p.checksum) :
    (upsertRows rows nid p).1.find? (fun r => r.checksum == c) =
      rows.find? (fun r => r.checksum == c) := by
  induction rows generalizing nid with
  | nil =>
    have hb : (p.checksum == c) = false := by simp [Ne.symm hc]
    simp [upsertRows, List.find?, newRow, hb]
  | cons x xs ih =>
    by_cases hx : x.checksum = p.checksum
    · rw [upsertRows, if_pos hx]
      have h1 : (applyConflictUpdate p x).checksum = x.checksum := rfl
      by_cases hxc : x.checksum = c
      · exact absurd (hxc.symm.trans hx) hc
      · rw [List.find?_cons_of_neg _ (by simp [h1, hxc]),
          List.find?_cons_of_neg _ (by simp [hxc])]
    · rw [upsertRows, if_neg hx]
      have h2 := ih nid
      cases hres : upsertRows xs nid p with
      | mk rows' rest =>
        rw [hres] at h2
        simp only
        by_cases hxc : x.checksum = c
        · rw [List.find?_cons_of_pos _ (by simp [hxc]),
            List.find?_cons_of_pos _ (by simp [hxc])]
        · rw [List.find?_cons_of_neg _ (by simp [hxc]),
            List.find?_cons_of_neg _ (by simp [hxc])]
          exact h2

lemma upsertRows_pair (rows : List CSVRowRec) (nid : Nat) (p : PreparedRow) :
    (upsertRows rows nid p).2.2 =
      (p.checksum,
        match rows.find? (fun r => r.checksum == p.checksum) with
        | some x => x.id
        | none => nid) := by
  induction rows generalizing nid with
  | nil => simp [upsertRows, List.find?]
  | cons x xs ih =>
    by_cases hx : x.checksum = p.checksum
    · rw [upsertRows, if_pos hx]
      rw [List.find?_cons_of_pos _ (by simp [hx])]
    · rw [upsertRows, if_neg hx]
      have h2 := ih nid
      cases hres : upsertRows xs nid p with
      | mk rows' rest =>
        rw [hres] at h2
        simp only
        rw [List.find?_cons_of_neg _ (by simp [hx])]
        exact h2

lemma bulk_cons (t : RowTable) (p : PreparedRow) (rest : List PreparedRow) :
    bulk_upsert_rows t (p :: rest) =
      ((bulk_upsert_rows ⟨(upsertRows t.rows t.nextId p).1,
          (upsertRows t.rows t.nextId p).2.1⟩ rest).1,
       (upsertRows t.rows t.nextId p).2.2 ::
         (bulk_upsert_rows ⟨(upsertRows t.rows t.nextId p).1,
           (upsertRows t.rows t.nextId p).2.1⟩ rest).2) := rfl

lemma mappingGet_cons (k : String) (v : Nat) (rest : List (String × Nat))
    (c : String) :
    mappingGet ((k, v) :: rest) c =
      match mappingGet rest c with
      | some w => some w
      | none => if k == c then some v else none := rfl

lemma bulk_not_mem (batch : List PreparedRow) (t : RowTable) (c : String)
    (hc : c ∉ batch.map (·.checksum)) :
    findRow (bulk_upsert_rows t batch).1 c = findRow t c ∧
      mappingGet (bulk_upsert_rows t batch).2 c = none := by
  induction batch generalizing t with
  | nil => exact ⟨rfl, rfl⟩
  | cons p rest ih =>
    have hcp : c ≠ p.checksum := fun he => hc (by simp [he])
    have hcr : c ∉ rest.map (·.checksum) := fun hm => hc (by simp [hm])
    have hfind := upsertRows_find_ne t.rows t.nextId p c hcp
    have hpair := upsertRows_pair t.rows t.nextId p
    have hih := ih (t := ⟨(upsertRows t.rows t.nextId p).1,
      (upsertRows t.rows t.nextId p).2.1⟩) hcr
    rw [bulk_cons]
    refine ⟨hih.1.trans hfind, ?_⟩
    rw [hpair, mappingGet_cons, hih.2]
    have hb : (p.checksum == c) = false := by
      simp [Ne.symm hcp]
    simp [hb]

lemma bulk_find_mapping (batch : List PreparedRow) (t : RowTable) (c : String)
    (hc : c ∈ batch.map (·.checksum)) :
    ∃ x, findRow (bulk_upsert_rows t batch).1 c = some x ∧
      mappingGet (bulk_upsert_rows t batch).2 c = some x.id := by
  induction batch generalizing t with
  | nil => cases hc
  | cons p rest ih =>
    by_cases hmem : c ∈ rest.map (·.checksum)
    · obtain ⟨x, hfx, hmx⟩ := ih (t := ⟨(upsertRows t.rows t.nextId p).1,
        (upsertRows t.rows t.nextId p).2.1⟩) hmem
      rw [bulk_cons]
      refine ⟨x, hfx, ?_⟩
      rw [upsertRows_pair, mappingGet_cons, hmx]
    · have hcp : c = p.checksum := by
        rcases List.mem_map.mp hc with ⟨q, hq, hcq⟩
        rcases List.mem_cons.mp hq with rfl | hq'
        · exact hcq.symm
        · exact absurd (List.mem_map.mpr ⟨q, hq', hcq⟩) hmem
      subst hcp
      have hfind := upsertRows_find_eq t.rows t.nextId p
      have hpair := upsertRows_pair t.rows t.nextId p
      have hnm := bulk_not_mem rest ⟨(upsertRows t.rows t.nextId p).1,
        (upsertRows t.rows t.nextId p).2.1⟩ p.checksum hmem
      rw [bulk_cons]
      cases hx : t.rows.find? (fun r => r.checksum == p.checksum) with
      | some x0 =>
        rw [hx] at hfind hpair
        refine ⟨applyConflictUpdate p x0, hnm.1.trans hfind, ?_⟩
        rw [hpair, mappingGet_cons, hnm.2]
        simp [applyConflictUpdate]
      | none =>
        rw [hx] at hfind hpair
        refine ⟨newRow t.nextId p, hnm.1.trans hfind, ?_⟩
        rw [hpair, mappingGet_cons, hnm.2]
        simp [newRow]

lemma bulk_id_stable (batch : List PreparedRow) (t : RowTable) (c : String)
    {x : CSVRowRec} (hx : findRow t c = some x) :
    ∃ x', findRow (bulk_upsert_rows t batch).1 c = some x' ∧ x'.id = x.id := by
  induction batch generalizing t x with
  | nil => exact ⟨x, hx, rfl⟩
  | cons p rest ih =>
    rw [bulk_cons]
    by_cases hcp : c = p.checksum
    · subst hcp
      have hx' : t.rows.find? (fun r => r.checksum == p.checksum) = some x := hx
      have hfind := upsertRows_find_eq t.rows t.nextId p
      rw [hx'] at hfind
      obtain ⟨x', hfx', hid⟩ := ih (t := ⟨(upsertRows t.rows t.nextId p).1,
        (upsertRows t.rows t.nextId p).2.1⟩) (x := applyConflictUpdate p x) hfind
      exact ⟨x', hfx', hid⟩
    · have hfind := upsertRows_find_ne t.rows t.nextId p c hcp
      exact ih (t := ⟨(upsertRows t.rows t.nextId p).1,
        (upsertRows t.rows t.nextId p).2.1⟩) (x := x) (hfind.trans hx)

lemma bulk_last_fields (batch : List PreparedRow) (t : RowTable) (c : String)
    (p : PreparedRow) (hp : p ∈ batch) (hc : p.checksum = c)
    (hnd : (batch.map (·.checksum)).Nodup) :
    ∃ x, findRow (bulk_upsert_rows t batch).1 c = some x ∧
      x.external_id = p.external_id ∧ x.file_id = p.file_id ∧
      x.content = p.content ∧ x.fields = p.fields := by
  induction batch generalizing t with
  | nil => cases hp
  | cons q rest ih =>
    rw [List.map_cons, List.nodup_cons] at hnd
    rw [bulk_cons]
    by_cases hqc : q.checksum = c
    · have hpq : p = q := by
        rcases List.mem_cons.mp hp with rfl | hp'
        · rfl
        · exact absurd (List.mem_map.mpr ⟨p, hp', (hc.trans hqc.symm)⟩) hnd.1
      subst hpq
      subst hc
      have hrest : p.checksum ∉ rest.map (·.checksum) := hnd.1
      have hnm := bulk_not_mem rest ⟨(upsertRows t.rows t.nextId p).1,
        (upsertRows t.rows t.nextId p).2.1⟩ p.checksum hrest
      have hfind := upsertRows_find_eq t.rows t.nextId p
      cases hx : t.rows.find? (fun r => r.checksum == p.checksum) with
      | some x0 =>
        rw [hx] at hfind
        exact ⟨applyConflictUpdate p x0, hnm.1.trans hfind, rfl, rfl, rfl, rfl⟩
      | none =>
        rw [hx] at hfind
        exact ⟨newRow t.nextId p, hnm.1.trans hfind, rfl, rfl, rfl, rfl⟩
    · have hp' : p ∈ rest := by
        rcases List.mem_cons.mp hp with rfl | hp'
        · exact absurd hc hqc
        · exact hp'
      exact ih (t := ⟨(upsertRows t.rows t.nextId q).1,
        (upsertRows t.rows t.nextId q).2.1⟩) hp' hnd.2

end RowStore

/-! ## Theorems for claims C3 and C9 -/

/-- Claim C3: for every lease key, `release(key, owner)` deletes the stored
lease if and only if the stored owner equals the releasing owner; when the
owners differ (or the key is absent) the stored entry is left unchanged.  The
model function is total — mirroring that `RedisLock.release` catches every
exception internally and never raises to the caller — and the equation holds
on both the Lua path and the fallback path taken when `redis.eval` raises. -/
theorem C3_release_compare_and_delete (store : Option String) (owner : String)
    (evalRaises : Bool) :
    Worker.RedisLock.release store owner evalRaises =
      if store = some owner then none else store := by
  cases store with
  | none => cases evalRaises <;> simp [Worker.RedisLock.release, Worker.releaseLua]
  | some v =>
    by_cases h : v = owner <;>
      cases evalRaises <;>
        simp [Worker.RedisLock.release, Worker.releaseLua, h]

/-- Claim C9: a tool entry's `running_count` is never negative: starting from
the initial count 0, every sequence of invocation-slot acquisitions and
releases — including unmatched or repeated releases — leaves the count
non-negative, because `__aexit__` clamps the decrement at zero. -/
theorem C9_running_count_nonneg (ops : List Registry.SlotOp) :
    0 ≤ Registry.runSlots 0 ops :=
  Registry.runSlots_nonneg ops 0 le_rfl

/-- Claim C8: a delivery of `ingest_tool_task` that finds the
idempotency-derived lock key already held by another task does not execute
the ingestion and does not raise: it returns the unchanged store together
with a `"running"` response carrying the in-progress owner's task id (the
model function is total, so no exception path exists). -/
theorem C8_duplicate_delivery_running (owner : String) (heldTtl : Int)
    (toolName taskId : String) (ttl : Int) :
    Worker.ingest_tool_task (some (owner, heldTtl)) toolName taskId ttl =
      { store := some (owner, heldTtl)
        resp := { tool := toolName, status := "running",
                  runningTaskId := some owner, ttl := some heldTtl,
                  taskId := none, message := none }
        executedIngest := false } := by
  simp [Worker.ingest_tool_task, Worker.RedisLock.tryAcquire,
    Worker.RedisLock.getLockInfo]

/-- Claim C4 counterexample: a registered tool whose adapter has no
`initialize` method but exposes a falsy `ready` attribute (exactly the shape
of the repository's own `DummyTool` before initialization) is NOT marked
ready by `initialize_all` — `entry.ready` is set to
`bool(getattr(adapter, "ready", True))`, which is `False` here even though
`initialize_all` returns normally.  This refutes the sub-claim that tools
without an initializer are immediately marked ready. -/
theorem C4_no_init_not_ready_counterexample :
    (Registry.initialize_all 10 [⟨none, some false⟩]).outcome = none ∧
      (Registry.initialize_all 10 [⟨none, some false⟩]).entries =
        [⟨false, none, false⟩] := by
  constructor <;> rfl

/-- Claim C4 (amended): `initialize_all` runs all registered tools'
initializers concurrently; a tool without an initializer is immediately
marked with the readiness its adapter reports (`getattr(adapter, "ready",
True)` — ready by default, but not ready when the adapter exposes a falsy
`ready` attribute).  If an initializer fails first (no earlier failure and
within the timeout), the exception of a first-failing initializer is
re-raised, every initializer still pending at that moment is cancelled (left
not ready, no error recorded), and every initializer that already finished
successfully leaves its tool marked with its adapter-reported readiness.  If
instead the timeout expires with no finished failure, pending initializers
are cancelled and a timeout error is raised; when everything succeeds within
the timeout, `initialize_all` returns normally. -/
theorem C4_initialize_all_first_failure_wins (timeout : Nat)
    (tools : List Registry.AdapterSpec) :
    (∀ i a, tools.get? i = some a → a.init = none →
      (Registry.initialize_all timeout tools).entries.get? i =
        some ⟨a.readyAttr.getD true, none, false⟩) ∧
    (∀ s ∈ Registry.initTasks tools, s.fails = true → s.finish ≤ timeout →
      (∀ u ∈ Registry.initTasks tools, u.fails = true → s.finish ≤ u.finish) →
      (∃ u ∈ Registry.initTasks tools, u.fails = true ∧ u.finish = s.finish ∧
        (Registry.initialize_all timeout tools).outcome =
          some (.initFailed u.errMsg)) ∧
      (∀ i a t, tools.get? i = some a → a.init = some t → s.finish < t.finish →
        (Registry.initialize_all timeout tools).entries.get? i =
          some ⟨false, none, true⟩) ∧
      (∀ i a t, tools.get? i = some a → a.init = some t → t.fails = false →
        t.finish ≤ s.finish →
        (Registry.initialize_all timeout tools).entries.get? i =
          some ⟨a.readyAttr.getD true, none, false⟩)) ∧
    ((∀ u ∈ Registry.initTasks tools, u.fails = true → timeout < u.finish) →
      (∃ u ∈ Registry.initTasks tools, timeout < u.finish) →
      (Registry.initialize_all timeout tools).outcome = some .timeoutErr ∧
      (∀ i a t, tools.get? i = some a → a.init = some t → timeout < t.finish →
        (Registry.initialize_all timeout tools).entries.get? i =
          some ⟨false, none, true⟩)) ∧
    ((∀ u ∈ Registry.initTasks tools, u.fails = false ∧ u.finish ≤ timeout) →
      (Registry.initialize_all timeout tools).outcome = none) := by
  refine ⟨?_, ?_, ?_, ?_⟩
  · intro i a hi hn
    rw [Registry.entries_get?, hi]
    simp [Registry.entryAfterInitAll, hn]
  · intro s hmem hfail hfin hmin
    have hcut : Registry.waitCutoff timeout tools = s.finish :=
      Registry.waitCutoff_eq_of_first timeout tools hmem hfail hfin hmin
    refine ⟨?_, ?_, ?_⟩
    · have hsdf : s ∈ Registry.doneFailedTasks timeout tools := by
        refine List.mem_filter.mpr ⟨hmem, ?_⟩
        simp [hfail, hcut]
      cases hdf : Registry.doneFailedTasks timeout tools with
      | nil => rw [hdf] at hsdf; cases hsdf
      | cons u rest =>
        have humem : u ∈ Registry.doneFailedTasks timeout tools := by
          rw [hdf]; exact List.mem_cons_self u rest
        obtain ⟨hu1, hu2⟩ := List.mem_filter.mp humem
        have hu2' : u.fails = true ∧ u.finish ≤ Registry.waitCutoff timeout tools := by
          simpa using hu2
        have hufails : u.fails = true := hu2'.1
        have hule : u.finish ≤ s.finish := hcut ▸ hu2'.2
        have huge : s.finish ≤ u.finish := hmin u hu1 hufails
        refine ⟨u, hu1, hufails, by omega, ?_⟩
        simp only [Registry.initialize_all, hdf, List.head?_cons]
    · intro i a t hi ht hgt
      rw [Registry.entries_get?, hi]
      simp [Registry.entryAfterInitAll, ht, hcut, show ¬(t.finish ≤ s.finish) by omega]
    · intro i a t hi ht htf htle
      rw [Registry.entries_get?, hi]
      simp [Registry.entryAfterInitAll, ht, hcut, htle, htf]
  · intro hnof hpend
    have hcut : Registry.waitCutoff timeout tools = timeout :=
      Registry.waitCutoff_eq_timeout timeout tools hnof
    have hdf : Registry.doneFailedTasks timeout tools = [] := by
      refine List.filter_eq_nil.mpr ?_
      intro u hu
      simp only [Bool.and_eq_true, decide_eq_true_eq, not_and]
      intro huf
      have := hnof u hu huf
      omega
    obtain ⟨u, hu, hugt⟩ := hpend
    have hany : (Registry.initTasks tools).any
        (fun s => Registry.waitCutoff timeout tools < s.finish) = true := by
      refine List.any_eq_true.mpr ⟨u, hu, ?_⟩
      simp [hcut, hugt]
    refine ⟨?_, ?_⟩
    · simp only [Registry.initialize_all, hdf, List.head?_nil, hany, if_true]
    · intro i a t hi ht hgt
      rw [Registry.entries_get?, hi]
      simp [Registry.entryAfterInitAll, ht, hcut, show ¬(t.finish ≤ timeout) by omega]
  · intro hall
    have hcut : Registry.waitCutoff timeout tools = timeout :=
      Registry.waitCutoff_eq_timeout timeout tools (fun u hu huf => by
        have := (hall u hu).1
        rw [this] at huf
        cases huf)
    have hdf : Registry.doneFailedTasks timeout tools = [] := by
      refine List.filter_eq_nil.mpr ?_
      intro u hu
      simp [(hall u hu).1]
    have hany : (Registry.initTasks tools).any
        (fun s => Registry.waitCutoff timeout tools < s.finish) = false := by
      refine List.any_eq_false.mpr ?_
      intro u hu
      have := (hall u hu).2
      simp [hcut]
      omega
    simp [Registry.initialize_all, hdf, hany]

/-- Concrete scenario for the amended Claim C4: three tools with
initializers — A succeeds at time 1, B fails at time 2 with "boom", C would
finish at time 5 — plus a tool without an initializer, with timeout 10.
`initialize_all` raises B's exception, C is cancelled, A (already finished
successfully) remains marked ready, and the initializer-less tool is marked
with its adapter-reported readiness. -/
theorem C4_initialize_all_witness :
    (∃ u ∈ Registry.initTasks
        [⟨some ⟨1, false, ""⟩, some true⟩, ⟨some ⟨2, true, "boom"⟩, none⟩,
         ⟨some ⟨5, false, ""⟩, some true⟩, ⟨none, some true⟩],
      u.fails = true ∧ u.finish = 2 ∧
      (Registry.initialize_all 10
        [⟨some ⟨1, false, ""⟩, some true⟩, ⟨some ⟨2, true, "boom"⟩, none⟩,
         ⟨some ⟨5, false, ""⟩, some true⟩, ⟨none, some true⟩]).outcome =
        some (.initFailed u.errMsg)) ∧
    (Registry.initialize_all 10
        [⟨some ⟨1, false, ""⟩, some true⟩, ⟨some ⟨2, true, "boom"⟩, none⟩,
         ⟨some ⟨5, false, ""⟩, some true⟩, ⟨none, some true⟩]).entries.get? 2 =
      some ⟨false, none, true⟩ ∧
    (Registry.initialize_all 10
        [⟨some ⟨1, false, ""⟩, some true⟩, ⟨some ⟨2, true, "boom"⟩, none⟩,
         ⟨some ⟨5, false, ""⟩, some true⟩, ⟨none, some true⟩]).entries.get? 0 =
      some ⟨true, none, false⟩ ∧
    (Registry.initialize_all 10
        [⟨some ⟨1, false, ""⟩, some true⟩, ⟨some ⟨2, true, "boom"⟩, none⟩,
         ⟨some ⟨5, false, ""⟩, some true⟩, ⟨none, some true⟩]).entries.get? 3 =
      some ⟨true, none, false⟩ := by
  have h := C4_initialize_all_first_failure_wins 10
    [⟨some ⟨1, false, ""⟩, some true⟩, ⟨some ⟨2, true, "boom"⟩, none⟩,
     ⟨some ⟨5, false, ""⟩, some true⟩, ⟨none, some true⟩]
  obtain ⟨h1, h2, h3, h4⟩ := h
  have hb := h2 ⟨2, true, "boom"⟩ (by decide) (by decide) (by decide) (by decide)
  exact ⟨hb.1,
    hb.2.1 2 ⟨some ⟨5, false, ""⟩, some true⟩ ⟨5, false, ""⟩ (by decide) rfl (by decide),
    hb.2.2 0 ⟨some ⟨1, false, ""⟩, some true⟩ ⟨1, false, ""⟩ (by decide) rfl rfl (by decide),
    h1 3 ⟨none, some true⟩ (by decide) rfl⟩

/-- Claim C5: `get_or_register_source` computes the current content
fingerprint and then: with no record stored under the (normalized) path, it
inserts one with status PENDING and resume offset 0 and returns it; with a
stored record whose fingerprint differs from the current one, it updates the
fingerprint, resets status to PENDING and resume offset to 0, and returns the
updated record; otherwise it returns the stored record unchanged (and leaves
the store untouched).  `fp` is the filesystem content fingerprint; row ids
are assumed unique in the store (the database primary key). -/
theorem C5_get_or_register_source (t : FileMgr.FileTable) (fp : String → String)
    (p : String) (hnd : (t.files.map (·.id)).Nodup) :
    (FileMgr.get_csv_file t (FileMgr.normalized_path p) = none →
      FileMgr.get_or_register_file t fp p =
        (some ⟨t.nextId, FileMgr.normalized_path (FileMgr.normalized_path p),
           fp (FileMgr.normalized_path (FileMgr.normalized_path p)),
           FileStatus.PENDING, 0⟩,
         ⟨t.files ++ [⟨t.nextId,
           FileMgr.normalized_path (FileMgr.normalized_path p),
           fp (FileMgr.normalized_path (FileMgr.normalized_path p)),
           FileStatus.PENDING, 0⟩], t.nextId + 1⟩)) ∧
    (∀ x, FileMgr.get_csv_file t (FileMgr.normalized_path p) = some x →
      x.checksum ≠ fp (FileMgr.normalized_path (FileMgr.normalized_path p)) →
      FileMgr.get_or_register_file t fp p =
        (some { x with
            checksum := fp (FileMgr.normalized_path (FileMgr.normalized_path p)),
            status := FileStatus.PENDING, last_row_index := 0 },
         ⟨t.files.map (fun f =>
            if f.id == x.id then
              { f with checksum := fp (FileMgr.normalized_path (FileMgr.normalized_path p)),
                       status := FileStatus.PENDING, last_row_index := 0 }
            else f), t.nextId⟩)) ∧
    (∀ x, FileMgr.get_csv_file t (FileMgr.normalized_path p) = some x →
      x.checksum = fp (FileMgr.normalized_path (FileMgr.normalized_path p)) →
      FileMgr.get_or_register_file t fp p = (some x, t)) := by
  refine ⟨?_, ?_, ?_⟩
  · intro hx
    simp only [FileMgr.get_or_register_file, hx, FileMgr.create_csv_file]
  · intro x hx hne
    have hmem : x ∈ t.files := List.mem_of_find?_eq_some hx
    have hupd := FileMgr.find?_update_by_id t.files hnd x hmem
      (fun f => { f with
        checksum := fp (FileMgr.normalized_path (FileMgr.normalized_path p)),
        status := FileStatus.PENDING, last_row_index := 0 })
      (fun f => rfl)
    simp only [FileMgr.get_or_register_file, hx]
    rw [if_pos hne]
    simp only [FileMgr.update_csv_file_checksum, hupd]
  · intro x hx heq
    simp only [FileMgr.get_or_register_file, hx]
    rw [if_neg (by simp [heq])]

/-- Witness for Claim C5: registering a fresh path in an empty store inserts
a PENDING record with resume offset 0 and returns it; re-registering the same
unchanged path returns it untouched; a changed fingerprint resets the record. -/
theorem C5_get_or_register_source_witness :
    FileMgr.get_csv_file ⟨[], 1⟩ (FileMgr.normalized_path "data/a.csv") = none ∧
    FileMgr.get_or_register_file ⟨[], 1⟩ (fun _ => "h") "data/a.csv" =
      (some ⟨1, "data/a.csv", "h", FileStatus.PENDING, 0⟩,
       ⟨[⟨1, "data/a.csv", "h", FileStatus.PENDING, 0⟩], 2⟩) ∧
    FileMgr.get_or_register_file
        ⟨[⟨1, "data/a.csv", "h", FileStatus.PENDING, 0⟩], 2⟩ (fun _ => "h")
        "data/a.csv" =
      (some ⟨1, "data/a.csv", "h", FileStatus.PENDING, 0⟩,
       ⟨[⟨1, "data/a.csv", "h", FileStatus.PENDING, 0⟩], 2⟩) ∧
    FileMgr.get_or_register_file
        ⟨[⟨1, "data/a.csv", "h", FileStatus.DONE, 7⟩], 2⟩ (fun _ => "h2")
        "data/a.csv" =
      (some ⟨1, "data/a.csv", "h2", FileStatus.PENDING, 0⟩,
       ⟨[⟨1, "data/a.csv", "h2", FileStatus.PENDING, 0⟩], 2⟩) := by
  have h1 := (C5_get_or_register_source ⟨[], 1⟩ (fun _ => "h") "data/a.csv"
    (by decide)).1 (by decide)
  have h2 := (C5_get_or_register_source
    ⟨[⟨1, "data/a.csv", "h", FileStatus.PENDING, 0⟩], 2⟩ (fun _ => "h")
    "data/a.csv" (by decide)).2.2
    ⟨1, "data/a.csv", "h", FileStatus.PENDING, 0⟩ (by decide) (by decide)
  have h3 := (C5_get_or_register_source
    ⟨[⟨1, "data/a.csv", "h", FileStatus.DONE, 7⟩], 2⟩ (fun _ => "h2")
    "data/a.csv" (by decide)).2.1
    ⟨1, "data/a.csv", "h", FileStatus.DONE, 7⟩ (by decide) (by decide)
  exact ⟨by decide, by rw [h1]; decide, by rw [h2], by rw [h3]; decide⟩

/-- Claim C10: `get_or_register_source` normalizes the input path
(`os.path.normpath` plus backslash-to-slash conversion) before both the
fingerprint computation and the store lookup, so two spellings of a path with
the same normalization behave identically, and running the operation with the
second spelling after the first returns the same single record without
mutating the store — no duplicate record is created.  (`hid` is an instance
of idempotence of the normalization at `p1`, which holds for every path.) -/
theorem C10_normalized_spellings_single_record (t : FileMgr.FileTable)
    (fp : String → String) (p1 p2 : String)
    (hnd : (t.files.map (·.id)).Nodup)
    (hnorm : FileMgr.normalized_path p1 = FileMgr.normalized_path p2)
    (hid : FileMgr.normalized_path (FileMgr.normalized_path p1) =
      FileMgr.normalized_path p1) :
    FileMgr.get_or_register_file t fp p1 =
      FileMgr.get_or_register_file t fp p2 ∧
    FileMgr.get_or_register_file (FileMgr.get_or_register_file t fp p1).2 fp p2 =
      ((FileMgr.get_or_register_file t fp p1).1,
       (FileMgr.get_or_register_file t fp p1).2) := by
  refine ⟨FileMgr.get_or_register_file_congr t fp hnorm, ?_⟩
  rw [FileMgr.get_or_register_file_congr _ fp hnorm.symm]
  exact FileMgr.get_or_register_file_stable t fp p1 hnd hid

/-- Witness for Claim C10: the spellings `"a//b/../c"` and `"./a/c"`
normalize identically; starting from the empty store, the two calls agree and
the second call returns the record created by the first without inserting a
duplicate. -/
theorem C10_normalized_spellings_single_record_witness :
    FileMgr.get_or_register_file ⟨[], 1⟩ (fun _ => "h") "a//b/../c" =
      FileMgr.get_or_register_file ⟨[], 1⟩ (fun _ => "h") "./a/c" ∧
    FileMgr.get_or_register_file
        (FileMgr.get_or_register_file ⟨[], 1⟩ (fun _ => "h") "a//b/../c").2
        (fun _ => "h") "./a/c" =
      ((FileMgr.get_or_register_file ⟨[], 1⟩ (fun _ => "h") "a//b/../c").1,
       (FileMgr.get_or_register_file ⟨[], 1⟩ (fun _ => "h") "a//b/../c").2) :=
  C10_normalized_spellings_single_record ⟨[], 1⟩ (fun _ => "h") "a//b/../c"
    "./a/c" (by decide) (by decide) (by decide)

/-- Claim C1 counterexample: in the csv_rag pipeline
(`CSVIngestManager._flush_insert_stream`), a non-empty batch (row counter 2)
whose embedding computation fails returns normally but leaves the file's
resume offset at 0 — the offset does NOT advance past the attempted batch,
refuting the claim as stated for this cited implementation. -/
theorem C1_csv_rag_embed_fail_no_advance_counterexample :
    (CsvRagPipe.flush_insert_stream ⟨⟨[], 1⟩, FileStatus.PENDING, 0, []⟩
        ⟨[⟨1, 1, "t1", "c1", []⟩, ⟨1, 2, "t2", "c2", []⟩], 2⟩
        ⟨none, some "boom", none⟩).toOption.map (fun s => s.lastRowIndex) =
      some 0 ∧
    (⟨[⟨1, 1, "t1", "c1", []⟩, ⟨1, 2, "t2", "c2", []⟩], 2⟩ :
      Pipeline.Batch).counter = 2 := by
  exact ⟨by decide, rfl⟩

/-- Claim C1 (amended): in the manual pipeline
(`CSVIngestManager.ingest_rows`, src/manual/managers/ingest_manager.py) the
resume offset advances to the attempted batch's row counter after every
batch regardless of that batch's outcome — upsert failure, embedding
failure, index-write failure or success.  In the csv_rag pipeline
(`_flush_insert_stream`), the offset advances on success and on an empty
index batch, but a batch whose embedding computation fails returns without
advancing the offset, and an index-write failure propagates as an exception
out of the flush without advancing it. -/
theorem C1_offset_advances_per_variant :
    (∀ (st : Pipeline.PipeState) (b : Pipeline.Batch)
      (f : Pipeline.BatchFault),
      (Pipeline.processBatch st b f).lastRowIndex = b.counter) ∧
    (∀ (st : Pipeline.PipeState) (b : Pipeline.Batch) (e : String),
      ∃ st', CsvRagPipe.flush_insert_stream st b ⟨none, some e, none⟩ =
          .ok st' ∧ st'.lastRowIndex = st.lastRowIndex) ∧
    (∀ (st : Pipeline.PipeState) (b : Pipeline.Batch) (err : String),
      b.buffer ≠ [] →
      Pipeline.vsBatchOf (RowStore.bulk_upsert_rows st.table b.buffer).2
        (Pipeline.dedupFirst (b.buffer.map (·.checksum))) ≠ [] →
      CsvRagPipe.flush_insert_stream st b ⟨none, none, some err⟩ =
        .error err) ∧
    (∀ (st : Pipeline.PipeState) (b : Pipeline.Batch),
      b.buffer ≠ [] →
      ∃ st', CsvRagPipe.flush_insert_stream st b Pipeline.noFault = .ok st' ∧
        st'.lastRowIndex = b.counter) := by
  refine ⟨?_, ?_, ?_, ?_⟩
  · intro st b f
    rcases f with ⟨ue, ee, ve⟩
    cases ue <;> cases ee <;> cases ve <;>
      simp only [Pipeline.processBatch] <;>
        first
        | rfl
        | (split <;> rfl)
  · intro st b e
    by_cases hb : b.buffer = []
    · exact ⟨st, by simp [CsvRagPipe.flush_insert_stream, hb], rfl⟩
    · refine ⟨{ st with
        table := Pipeline.mark_checksums_failed
                   (RowStore.bulk_upsert_rows st.table b.buffer).1
                   (Pipeline.dedupFirst (b.buffer.map (·.checksum))) e },
        ?_, rfl⟩
      simp [CsvRagPipe.flush_insert_stream, hb]
  · intro st b err hb hvs
    simp only [CsvRagPipe.flush_insert_stream, if_neg hb]
    rw [if_pos hvs]
  · intro st b hb
    simp only [CsvRagPipe.flush_insert_stream, if_neg hb, Pipeline.noFault]
    by_cases hvs : Pipeline.vsBatchOf (RowStore.bulk_upsert_rows st.table
        b.buffer).2 (Pipeline.dedupFirst (b.buffer.map (·.checksum))) ≠ []
    · rw [if_pos hvs]
      exact ⟨_, rfl, rfl⟩
    · rw [if_neg hvs]
      exact ⟨_, rfl, rfl⟩

/-- Witness for Claim C1 (amended): the manual pipeline advances the offset
to the batch counter on an embedding-failure batch, while the csv_rag flush
leaves it unchanged on the same input. -/
theorem C1_offset_advances_witness :
    (Pipeline.processBatch ⟨⟨[], 1⟩, FileStatus.PENDING, 0, []⟩
        ⟨[⟨1, 1, "t1", "c1", []⟩, ⟨1, 2, "t2", "c2", []⟩], 2⟩
        ⟨none, some "boom", none⟩).lastRowIndex = 2 ∧
    (∃ st', CsvRagPipe.flush_insert_stream
        ⟨⟨[], 1⟩, FileStatus.PENDING, 0, []⟩
        ⟨[⟨1, 1, "t1", "c1", []⟩, ⟨1, 2, "t2", "c2", []⟩], 2⟩
        ⟨none, some "boom", none⟩ = .ok st' ∧ st'.lastRowIndex = 0) := by
  constructor
  · exact C1_offset_advances_per_variant.1
      ⟨⟨[], 1⟩, FileStatus.PENDING, 0, []⟩
      ⟨[⟨1, 1, "t1", "c1", []⟩, ⟨1, 2, "t2", "c2", []⟩], 2⟩
      ⟨none, some "boom", none⟩
  · exact C1_offset_advances_per_variant.2.1
      ⟨⟨[], 1⟩, FileStatus.PENDING, 0, []⟩
      ⟨[⟨1, 1, "t1", "c1", []⟩, ⟨1, 2, "t2", "c2", []⟩], 2⟩ "boom"

/-- Claim C6: for a source file with 5 records ingested with batch size 2
where the embedding computer fails only on the second batch, one run of the
manual pipeline followed by the orchestrator's `mark_file_as_done` leaves:
records 1–2 DONE with their vector ids, records 3–4 FAILED with the error
text recorded, record 5 (the final solo batch) DONE, resume offset 5, and
source status DONE. -/
theorem C6_five_records_batch2_fails :
    (let chk : List (String × String) → String := fun row =>
       ((row.find? (fun kv => kv.1 == "text")).map Prod.snd).getD ""
     let rows : List (List (String × String)) :=
       [[("external_id", "1"), ("text", "r1")],
        [("external_id", "2"), ("text", "r2")],
        [("external_id", "3"), ("text", "r3")],
        [("external_id", "4"), ("text", "r4")],
        [("external_id", "5"), ("text", "r5")]]
     let faults : List Pipeline.BatchFault :=
       [Pipeline.noFault, ⟨none, some "boom", none⟩, Pipeline.noFault]
     let final := Pipeline.ingest_file_and_mark_done chk chk 1 0 2 rows
       faults ⟨⟨[], 1⟩, FileStatus.PENDING, 0, []⟩ 5
     final.table.rows.map (fun r =>
         (r.checksum, r.embedding_status, r.embedding_error, r.vector_id)) =
       [("r1", EmbeddingStatus.DONE, none, some "CSVRow:1"),
        ("r2", EmbeddingStatus.DONE, none, some "CSVRow:2"),
        ("r3", EmbeddingStatus.FAILED, some "boom", none),
        ("r4", EmbeddingStatus.FAILED, some "boom", none),
        ("r5", EmbeddingStatus.DONE, none, some "CSVRow:5")] ∧
     final.lastRowIndex = 5 ∧ final.status = FileStatus.DONE ∧
     final.vsIds = ["CSVRow:1", "CSVRow:2", "CSVRow:5"]) := by
  decide

/-- Claim C7: upserting a batch containing a record fingerprint (checksum)
that already exists in the store returns the same canonical row id as the
earlier upsert of that fingerprint, and after the second upsert the stored
row's mutable columns (external id, file id, content, fields) carry the most
recent upsert's values.  `B2` is assumed free of internal duplicate
fingerprints (Postgres rejects a single `INSERT … ON CONFLICT DO UPDATE`
whose VALUES list hits the same conflict row twice). -/
theorem C7_upsert_idempotent_on_fingerprint (t0 : RowStore.RowTable)
    (B1 B2 : List RowStore.PreparedRow) (c : String)
    (p2 : RowStore.PreparedRow)
    (h1 : c ∈ B1.map (·.checksum))
    (hp2 : p2 ∈ B2) (hc2 : p2.checksum = c)
    (hnd2 : (B2.map (·.checksum)).Nodup) :
    ∃ i, RowStore.mappingGet (RowStore.bulk_upsert_rows t0 B1).2 c = some i ∧
      RowStore.mappingGet (RowStore.bulk_upsert_rows
        (RowStore.bulk_upsert_rows t0 B1).1 B2).2 c = some i ∧
      ∃ x, RowStore.findRow (RowStore.bulk_upsert_rows
          (RowStore.bulk_upsert_rows t0 B1).1 B2).1 c = some x ∧
        x.id = i ∧ x.external_id = p2.external_id ∧ x.file_id = p2.file_id ∧
        x.content = p2.content ∧ x.fields = p2.fields := by
  obtain ⟨x1, hf1, hm1⟩ := RowStore.bulk_find_mapping B1 t0 c h1
  obtain ⟨x2, hf2, hm2⟩ := RowStore.bulk_find_mapping B2
    (RowStore.bulk_upsert_rows t0 B1).1 c (List.mem_map.mpr ⟨p2, hp2, hc2⟩)
  obtain ⟨x2', hf2', hid⟩ := RowStore.bulk_id_stable B2
    (RowStore.bulk_upsert_rows t0 B1).1 c hf1
  obtain ⟨x3, hf3, hfe, hff, hfc, hffld⟩ := RowStore.bulk_last_fields B2
    (RowStore.bulk_upsert_rows t0 B1).1 c p2 hp2 hc2 hnd2
  have he1 : x2 = x2' := by
    rw [hf2] at hf2'
    exact Option.some.inj hf2'
  have he3 : x3 = x2 := by
    rw [hf2] at hf3
    exact (Option.some.inj hf3).symm
  refine ⟨x1.id, hm1, ?_, x2, hf2, ?_, ?_, ?_, ?_, ?_⟩
  · rw [hm2, he1, hid]
  · rw [he1, hid]
  · rw [← he3]; exact hfe
  · rw [← he3]; exact hff
  · rw [← he3]; exact hfc
  · rw [← he3]; exact hffld

/-- Witness for Claim C7: upserting checksum `"c"` first with one field set
and then (in a later batch) with another returns id 1 both times, and the
stored row afterwards carries the second upsert's mutable values. -/
theorem C7_upsert_idempotent_witness :
    ∃ i, RowStore.mappingGet (RowStore.bulk_upsert_rows ⟨[], 1⟩
        [⟨1, 10, "t1", "c", [("f", "1")]⟩]).2 "c" = some i ∧
      RowStore.mappingGet (RowStore.bulk_upsert_rows
        (RowStore.bulk_upsert_rows ⟨[], 1⟩
          [⟨1, 10, "t1", "c", [("f", "1")]⟩]).1
        [⟨2, 20, "t2", "c", [("f", "2")]⟩]).2 "c" = some i ∧
      ∃ x, RowStore.findRow (RowStore.bulk_upsert_rows
          (RowStore.bulk_upsert_rows ⟨[], 1⟩
            [⟨1, 10, "t1", "c", [("f", "1")]⟩]).1
          [⟨2, 20, "t2", "c", [("f", "2")]⟩]).1 "c" = some x ∧
        x.id = i ∧ x.external_id = (⟨2, 20, "t2", "c", [("f", "2")]⟩ :
          RowStore.PreparedRow).external_id ∧
        x.file_id = 2 ∧ x.content = "t2" ∧ x.fields = [("f", "2")] :=
  C7_upsert_idempotent_on_fingerprint ⟨[], 1⟩
    [⟨1, 10, "t1", "c", [("f", "1")]⟩] [⟨2, 20, "t2", "c", [("f", "2")]⟩]
    "c" ⟨2, 20, "t2", "c", [("f", "2")]⟩ (by decide) (by decide) (by decide)
    (by decide)

/-- Claim C2 (code bug): `ingest_folder` releases the advisory lock before the
folder scan — in its own event trace the release strictly precedes the scan —
and consequently there is a lock-respecting interleaving of two concurrent
`ingest_folder` calls in which both processes perform the folder scan and
mutate checkpoint state, each holding the lock zero times during its scan.
This contradicts the claim that exactly one process scans and mutates while
holding the lease for the whole scan-and-process phase (and the function's own
docstring "Protected by an advisory lock to avoid concurrent ingestion"). -/
theorem C2_lock_released_before_scan :
    (RagTool.ingestFolderEvents true true 1).indexOf .lockRelease <
        (RagTool.ingestFolderEvents true true 1).indexOf .scanFolder ∧
      RagTool.isShuffle (RagTool.tag 0 (RagTool.ingestFolderEvents true true 1))
          (RagTool.tag 1 (RagTool.ingestFolderEvents true true 1))
          RagTool.overlappingTrace = true ∧
      RagTool.lockOk none RagTool.overlappingTrace = true ∧
      RagTool.countEvents RagTool.overlappingTrace 0 .mutateCheckpoint = 1 ∧
      RagTool.countEvents RagTool.overlappingTrace 1 .mutateCheckpoint = 1 ∧
      RagTool.countEvents RagTool.overlappingTrace 0 .scanFolder = 1 ∧
      RagTool.countEvents RagTool.overlappingTrace 1 .scanFolder = 1 := by
  refine ⟨by decide, by decide, by decide, by decide, by decide, by decide, by decide⟩
